import Mathlib

/-!
Verification development for the flow repository excerpt: car-following
acceleration controllers (`flow/controllers/car_following_models.py`) and the
I-210 multi-agent RL environments (`flow/envs/multiagent/i210.py`).

The Python source is shallowly embedded: float arithmetic becomes real
arithmetic, Python dicts become association lists, the simulator handle
`self.k.vehicle` becomes a record of query functions, and the mutable
per-environment index maps become explicit state threaded through tick
functions.
-/

namespace Flow

/-- Simulator-assigned vehicle identifiers are strings. -/
abbrev VehId := String

/-! ## Agent index map of the fixed-roster adapters (`i210.py`)

`I210QMIXMultiEnv` and `I210MADDPGMultiEnv` maintain `rl_id_to_idx_map`
(an `OrderedDict` from vehicle id to slot index) together with
`index_counter`.  We model the dict as an insertion-ordered association
list plus the counter. -/

/-- One simulation tick's simulator output relevant to the index map:
`self.k.vehicle.get_departed_ids()` and `self.k.vehicle.get_rl_ids()`. -/
structure Tick where
  departed : List VehId
  rlIds : List VehId
deriving Repr

/-- The `rl_id_to_idx_map` / `index_counter` state of a fixed-roster adapter. -/
structure IdxMap where
  toIdx : List (VehId × ℕ)
  counter : ℕ
deriving Repr

/-- First-match association-list lookup (Python dict `__getitem__` re keys,
returning `none` where Python raises `KeyError`). -/
def assocFind {α β : Type} [DecidableEq α] : List (α × β) → α → Option β
  | [], _ => none
  | p :: rest, key => if p.1 = key then some p.2 else assocFind rest key

/-- Body of the insertion loop shared by `get_state` and `reset` of both
fixed-roster adapters:
`if key not in self.rl_id_to_idx_map and key in self.k.vehicle.get_rl_ids():`
then assign `key` the next index and bump `index_counter`. -/
def idxInsert (rlIds : List VehId) (m : IdxMap) (key : VehId) : IdxMap :=
  if assocFind m.toIdx key = none ∧ key ∈ rlIds then
    { toIdx := m.toIdx ++ [(key, m.counter)], counter := m.counter + 1 }
  else m

/-- The `for key in ...:` insertion loop over a list of candidate keys. -/
def idxExtend (m : IdxMap) (keys rlIds : List VehId) : IdxMap :=
  keys.foldl (idxInsert rlIds) m

/-- Effect of one `I210MADDPGMultiEnv.get_state` call on the index map:
incremental extension by the newly departed ids (lines 380-385). -/
def maddpgTickMap (m : IdxMap) (t : Tick) : IdxMap :=
  idxExtend m t.departed t.rlIds

/-- Effect of one `I210QMIXMultiEnv.get_state` call on the index map: the
incremental extension (lines 291-296) followed by the full rebuild
`self.rl_id_to_idx_map = {rl_id: i for i, rl_id in enumerate(rl_ids)}`
(lines 309-310).  `index_counter` is not reset by the rebuild. -/
def qmixTickMap (m : IdxMap) (t : Tick) : IdxMap :=
  let m' := idxExtend m t.departed t.rlIds
  { toIdx := t.rlIds.enum.map (fun p => (p.2, p.1)), counter := m'.counter }

/-- Index map built by `reset` of either fixed-roster adapter: cleared, then
the insertion loop runs over `get_departed_ids() + get_rl_ids()`. -/
def fixedRosterResetMap (departed rlIds : List VehId) : IdxMap :=
  idxExtend { toIdx := [], counter := 0 } (departed ++ rlIds) rlIds

/-- Index-map state of `I210MADDPGMultiEnv` after a `reset` followed by a
sequence of `get_state` ticks. -/
def maddpgRunMap (departed0 rlIds0 : List VehId) (ticks : List Tick) : IdxMap :=
  ticks.foldl maddpgTickMap (fixedRosterResetMap departed0 rlIds0)

/-! ## `I210QMIXMultiEnv.get_action_mask` (`i210.py` lines 321-330) -/

/-- `I210QMIXMultiEnv.get_action_mask(valid_agent)`: an array of length
`self.action_space.n = num_actions + 1`; for a valid agent all ones with a 0
at position 0, otherwise all zeros with a 1 at position 0. -/
def get_action_mask (numActions : ℕ) (validAgent : Bool) : List ℕ :=
  if validAgent then (List.replicate (numActions + 1) 1).set 0 0
  else (List.replicate (numActions + 1) 0).set 0 1

/-! ## `I210MADDPGMultiEnv.reset` (`i210.py` lines 408-424)

The final dict comprehension iterates `for rl_id in enumerate(rl_ids)`, so
each bound `rl_id` is a pair `(i, id)`, while the keys stored in
`rl_id_to_idx_map` are plain id strings.  We model the type of Python values
used as dict keys in this method as a sum. -/

/-- Python values used as dictionary keys inside `I210MADDPGMultiEnv.reset`:
either a vehicle-id string, or an `(index, vehicle-id)` pair produced by
`enumerate(rl_ids)`. -/
inductive PyKey where
  | str : String → PyKey
  | intStrPair : ℕ → String → PyKey
deriving DecidableEq, Repr

/-- The insertion-loop body of `I210MADDPGMultiEnv.reset` (lines 414-418),
storing string keys. -/
def maddpgResetStep (rlIds : List VehId) (mc : List (PyKey × ℕ) × ℕ)
    (key : VehId) : List (PyKey × ℕ) × ℕ :=
  if assocFind mc.1 (PyKey.str key) = none ∧ key ∈ rlIds then
    (mc.1 ++ [(PyKey.str key, mc.2)], mc.2 + 1)
  else mc

/-- The `rl_id_to_idx_map` rebuilt by `I210MADDPGMultiEnv.reset` over
`get_departed_ids() + get_rl_ids()`, together with the final counter. -/
def maddpgResetMapBuild (departed rlIds : List VehId) : List (PyKey × ℕ) × ℕ :=
  (departed ++ rlIds).foldl (maddpgResetStep rlIds) ([], 0)

/-- Overwrite-or-append update of an association list, modelling Python's
`dict.update` entry by entry. -/
def assocSet {α β : Type} [DecidableEq α] (l : List (α × β)) (k : α) (v : β) :
    List (α × β) :=
  if (assocFind l k).isNone then l ++ [(k, v)]
  else l.map (fun q => if q.1 = k then (k, v) else q)

/-- Python's `base.update(upd)` over association lists. -/
def assocUpdate {α β : Type} [DecidableEq α] (base upd : List (α × β)) :
    List (α × β) :=
  upd.foldl (fun acc p => assocSet acc p.1 p.2) base

/-- Whether an `Except` computation completed without raising. -/
def exceptIsOk {ε α : Type} : Except ε α → Bool
  | Except.ok _ => true
  | Except.error _ => false

/-- `I210MADDPGMultiEnv.reset` after the base reset (`veh_info = super().reset()`,
abstracted as `vehInfo`): rebuild the index map, deep-copy the default state,
then run `veh_info_copy.update({self.rl_id_to_idx_map[rl_id]: veh_info[rl_id]
for rl_id in enumerate(rl_ids)})` (lines 420-422).  Each comprehension
variable `rl_id` is an `(i, id)` pair; looking it up in the string-keyed
index map raises `KeyError`, modelled as `Except.error` carrying the
offending key. -/
def maddpgReset (α : Type) (departed rlIds : List VehId) (vehInfo : VehId → α)
    (defaultState : List (ℕ × α)) : Except PyKey (List (ℕ × α)) :=
  match rlIds.enum.mapM (fun p =>
      match assocFind (maddpgResetMapBuild departed rlIds).1
          (PyKey.intStrPair p.1 p.2) with
      | some idx => Except.ok (idx, vehInfo p.2)
      | none => Except.error (PyKey.intStrPair p.1 p.2)) with
  | Except.ok pairs => Except.ok (assocUpdate defaultState pairs)
  | Except.error k => Except.error k

/-! ## Real-valued embeddings

Python float arithmetic is idealized as real arithmetic. -/

noncomputable section

/-- Python's truthiness test `if not lead_id:` on a leader identifier:
true for `None` and for the empty string. -/
def noLeadId (leadId : Option VehId) : Prop :=
  leadId = none ∨ leadId = some ""

instance (leadId : Option VehId) : Decidable (noLeadId leadId) := by
  unfold noLeadId
  infer_instance

/-! ### `OVMController.get_accel` (`car_following_models.py` lines 232-252) -/

namespace OVMController

/-- The desired-speed function computed inline in `OVMController.get_accel`
(lines 244-250): 0 at or below `h_st`, the cosine ramp strictly between
`h_st` and `h_go`, and `v_max` from `h_go` on. -/
def V (h_st h_go v_max h : ℝ) : ℝ :=
  if h ≤ h_st then 0
  else if h < h_go then
    v_max / 2 * (1 - Real.cos (Real.pi * (h - h_st) / (h_go - h_st)))
  else v_max

/-- Closed form of `V` as a continuous composition: the cosine ramp applied
to the headway clamped into `[h_st, h_go]`.  Coincides with `V` whenever
`h_st < h_go` (proved below). -/
def Vclamp (h_st h_go v_max h : ℝ) : ℝ :=
  v_max / 2 * (1 - Real.cos (Real.pi * (max h_st (min h h_go) - h_st) / (h_go - h_st)))

/-- `OVMController.get_accel`: `max_accel` when there is no leader, otherwise
`alpha * (v_h - this_vel) + beta * h_dot` with `h_dot = lead_vel - this_vel`. -/
def get_accel (alpha beta h_st h_go v_max max_accel : ℝ) (leadId : Option VehId)
    (lead_vel this_vel h : ℝ) : ℝ :=
  if noLeadId leadId then max_accel
  else alpha * (V h_st h_go v_max h - this_vel) + beta * (lead_vel - this_vel)

end OVMController

/-! ### `LACController.get_accel` (`car_following_models.py` lines 158-171) -/

namespace LACController

/-- The desired control `u = k_1 * ex + k_2 * ev` with
`ex = headway - L - h * this_vel` and `ev = lead_vel - this_vel`
(lines 165-167). -/
def u (k_1 k_2 h headway L this_vel lead_vel : ℝ) : ℝ :=
  k_1 * (headway - L - h * this_vel) + k_2 * (lead_vel - this_vel)

/-- The state update of lines 168-169:
`a_dot = -(a/tau) + (u/tau); a = a_dot*sim_step + a`. -/
def update (tau sim_step a u : ℝ) : ℝ :=
  (-(a / tau) + u / tau) * sim_step + a

/-- `LACController.get_accel`: updates the persistent `self.a` and returns it.
The first component is the new stored `self.a`, the second the return value. -/
def get_accel (k_1 k_2 h tau sim_step a headway L this_vel lead_vel : ℝ) :
    ℝ × ℝ :=
  let uVal := u k_1 k_2 h headway L this_vel lead_vel
  let newA := update tau sim_step a uVal
  (newA, newA)

/-- The stored acceleration after `n` successive `get_accel` calls with the
same desired control `u` (constant inputs), starting from `a0`. -/
def iterA (tau sim_step uVal a0 : ℝ) : ℕ → ℝ
  | 0 => a0
  | n + 1 => update tau sim_step (iterA tau sim_step uVal a0 n) uVal

end LACController

/-! ### `IDMController.get_accel` (`car_following_models.py` lines 437-455) -/

namespace IDMController

/-- The headway actually used in the denominator: lines 443-445 replace `h`
by `1e-3` when `abs(h) < 1e-3`. -/
def effective_headway (h : ℝ) : ℝ :=
  if |h| < 1e-3 then 1e-3 else h

/-- Desired minimum gap `s_star` (lines 447-453): `0` when `lead_id` is
`None` or the empty string, otherwise
`s0 + max(0, v*T + v*(v - lead_vel) / (2*sqrt(a*b)))`. -/
def s_star (s0 T a b v : ℝ) (leadId : Option VehId) (lead_vel : ℝ) : ℝ :=
  if leadId = none ∨ leadId = some "" then 0
  else s0 + max 0 (v * T + v * (v - lead_vel) / (2 * Real.sqrt (a * b)))

/-- `IDMController.get_accel`:
`a * (1 - (v/v0)**delta - (s_star/h)**2)` with the floored headway. -/
def get_accel (v0 T a b delta s0 : ℝ) (v h : ℝ) (leadId : Option VehId)
    (lead_vel : ℝ) : ℝ :=
  a * (1 - (v / v0) ^ delta -
    (s_star s0 T a b v leadId lead_vel / effective_headway h) ^ 2)

end IDMController

/-! ### The I-210 environments (`i210.py`) -/

/-- The per-tick view of the simulator handle `self.k.vehicle` used by the
environment methods: `get_ids()`, `get_rl_ids()`, and the per-vehicle getters.
`get_leader` / `get_follower` return a neighbor id or a sentinel; `get_speed`
returns the simulator's `-1001` sentinel for a missing vehicle. -/
structure SimView where
  ids : List VehId
  rlIds : List VehId
  speed : VehId → ℝ
  headway : VehId → ℝ
  leader : VehId → VehId
  follower : VehId → VehId

/-- `np.nan_to_num(np.mean(xs))`: the mean of a nonempty list, and `0` for the
empty list (where `np.mean` yields `nan`). -/
def pyMean (xs : List ℝ) : ℝ :=
  if xs = [] then 0 else xs.sum / xs.length

namespace I210MultiEnv

/-- `I210MultiEnv._apply_rl_actions` (lines 105-117): in warmup steps
`rl_actions` is `None` and the falsy test `if rl_actions:` also skips an
empty dict; otherwise each vehicle is issued `apply_acceleration(rl_id,
actions[0])`.  The result is the list of issued simulator commands. -/
def apply_rl_actions (rl_actions : Option (List (VehId × List ℝ))) :
    List (VehId × ℝ) :=
  match rl_actions with
  | none => []
  | some acts => if acts = [] then [] else acts.map (fun p => (p.1, p.2.headI))

/-- `I210MultiEnv.get_state` (lines 120-135).  The `lead_obs` branch builds,
per RL vehicle, `[speed/50, headway/1000, lead_speed/50]` with a `-1001`
leader-speed sentinel mapped to `0`; the other branch concatenates
`state_util` and `veh_statistics`, which query per-lane simulator state and
are abstracted here as given observation functions. -/
def get_state (lead_obs : Bool) (state_util veh_statistics : VehId → List ℝ)
    (k : SimView) : List (VehId × List ℝ) :=
  if lead_obs then
    k.rlIds.map (fun rl_id =>
      (rl_id, [k.speed rl_id / 50,
               k.headway rl_id / 1000,
               (if k.speed (k.leader rl_id) = -1001 then 0
                else k.speed (k.leader rl_id)) / 50]))
  else
    k.rlIds.map (fun rl_id => (rl_id, state_util rl_id ++ veh_statistics rl_id))

/-- `I210MultiEnv.compute_reward` (lines 137-187).  Returns `{}` during
warmup (`rl_actions is None`); otherwise the local-reward branch averages the
squared speeds of each agent and its follower (speeds below 0 are dropped),
and the global branch combines `average_velocity` (external, passed in as
`avg_vel`) with the time-headway penalty, overridden in evaluation mode or
after a collision. -/
def compute_reward (local_reward evaluate fail : Bool) (avg_vel : ℝ)
    (rl_actions : Option (List (VehId × List ℝ))) (k : SimView) :
    List (VehId × ℝ) :=
  match rl_actions with
  | none => []
  | some _ =>
    if local_reward then
      k.rlIds.map (fun rl_id =>
        let follow_speed := k.speed (k.follower rl_id)
        let speeds := (if 0 ≤ follow_speed then [follow_speed] else []) ++
          (if 0 ≤ k.speed rl_id then [k.speed rl_id] else [])
        (rl_id, if speeds = [] then 0
                else pyMean (speeds.map (fun s => s ^ 2)) / 500))
    else
      k.rlIds.map (fun rl_id =>
        (rl_id,
          if evaluate then k.speed rl_id
          else if fail then 0
          else
            let cost1 := avg_vel
            let cost2 :=
              if k.leader rl_id ≠ "" ∧ 0 < k.speed rl_id then
                min ((max (k.headway rl_id / k.speed rl_id) 0 - 1) / 1) 0
              else 0
            max (1 * cost1 + 0 * cost2) 0))

end I210MultiEnv

namespace I210QMIXMultiEnv

/-- `I210QMIXMultiEnv.compute_reward` (lines 313-319): one global scalar,
`np.nan_to_num(np.mean(get_speed(get_rl_ids()))) / (20 * horizon)`, assigned
to every slot index in `range(max_num_agents)`. -/
def compute_reward (max_num_agents : ℕ) (horizon : ℝ) (k : SimView) :
    List (ℕ × ℝ) :=
  let reward := pyMean (k.rlIds.map k.speed) / (20 * horizon)
  (List.range max_num_agents).map (fun idx => (idx, reward))

end I210QMIXMultiEnv

namespace I210MADDPGMultiEnv

/-- `I210MADDPGMultiEnv.compute_reward` (lines 399-406): one global scalar,
`np.nan_to_num(np.mean(get_speed(get_ids()))) / (20 * horizon)` — note
`get_ids()`, the whole vehicle population — assigned to every slot index in
`range(max_num_agents)`. -/
def compute_reward (max_num_agents : ℕ) (horizon : ℝ) (k : SimView) :
    List (ℕ × ℝ) :=
  let reward := pyMean (k.ids.map k.speed) / (20 * horizon)
  (List.range max_num_agents).map (fun idx => (idx, reward))

end I210MADDPGMultiEnv

/-- Concrete simulator view used to evaluate the reward adapters: two
vehicles, of which only vehicle a is RL-controlled, with speeds 10 and 0. -/
def twoCarView : SimView where
  ids := ["a", "b"]
  rlIds := ["a"]
  speed := fun s => if s = "a" then 10 else 0
  headway := fun _ => 100
  leader := fun _ => ""
  follower := fun _ => ""

/-- Concrete simulator view with a single RL vehicle whose leader is missing:
`get_leader` returns the empty sentinel id, whose `get_speed` is the
simulator's `-1001` sentinel. -/
def missingLeadView : SimView where
  ids := ["a"]
  rlIds := ["a"]
  speed := fun s => if s = "a" then 10 else -1001
  headway := fun _ => 100
  leader := fun _ => ""
  follower := fun _ => ""

end

/-! ## Helper lemmas -/

theorem replicate_getD {x d : ℕ} : ∀ {k j : ℕ}, j < k →
    (List.replicate k x).getD j d = x := by
  intro k
  induction k with
  | zero => intro j hj; cases hj
  | succ n ih =>
    intro j hj
    cases j with
    | zero => rfl
    | succ j => exact ih (Nat.lt_of_succ_lt_succ hj)

theorem assocFind_map_self {α β : Type} [DecidableEq α] (f : α → β) :
    ∀ (l : List α) (a : α), a ∈ l →
      assocFind (l.map (fun x => (x, f x))) a = some (f a) := by
  intro l
  induction l with
  | nil => intro a ha; cases ha
  | cons b l ih =>
    intro a ha
    by_cases hb : b = a
    · subst hb
      simp [assocFind]
    · have hal : a ∈ l := by
        rcases List.mem_cons.mp ha with h | h
        · exact absurd h.symm hb
        · exact h
      simpa [assocFind, hb] using ih a hal

theorem idxInsert_snd (rlIds : List VehId) (m : IdxMap) (key : VehId)
    (hm : m.toIdx.map Prod.snd = List.range m.counter) :
    (idxInsert rlIds m key).toIdx.map Prod.snd
      = List.range (idxInsert rlIds m key).counter := by
  unfold idxInsert
  split
  · simp [hm, List.range_succ]
  · exact hm

theorem idxExtend_snd (rlIds : List VehId) :
    ∀ (keys : List VehId) (m : IdxMap),
      m.toIdx.map Prod.snd = List.range m.counter →
      (idxExtend m keys rlIds).toIdx.map Prod.snd
        = List.range (idxExtend m keys rlIds).counter := by
  intro keys
  induction keys with
  | nil => intro m hm; exact hm
  | cons key keys ih =>
    intro m hm
    exact ih (idxInsert rlIds m key) (idxInsert_snd rlIds m key hm)

theorem fixedRosterResetMap_snd (departed rlIds : List VehId) :
    (fixedRosterResetMap departed rlIds).toIdx.map Prod.snd
      = List.range (fixedRosterResetMap departed rlIds).counter :=
  idxExtend_snd rlIds (departed ++ rlIds) { toIdx := [], counter := 0 } rfl

theorem maddpgRunMap_snd (departed0 rlIds0 : List VehId) (ticks : List Tick) :
    (maddpgRunMap departed0 rlIds0 ticks).toIdx.map Prod.snd
      = List.range (maddpgRunMap departed0 rlIds0 ticks).counter := by
  unfold maddpgRunMap
  generalize hstart : fixedRosterResetMap departed0 rlIds0 = m0
  have h0 : m0.toIdx.map Prod.snd = List.range m0.counter := by
    rw [← hstart]; exact fixedRosterResetMap_snd departed0 rlIds0
  clear hstart
  induction ticks generalizing m0 with
  | nil => exact h0
  | cons t ticks ih =>
    exact ih (maddpgTickMap m0 t) (idxExtend_snd t.rlIds t.departed m0 h0)

theorem qmixTickMap_snd (m : IdxMap) (t : Tick) :
    (qmixTickMap m t).toIdx.map Prod.snd = List.range t.rlIds.length := by
  unfold qmixTickMap
  simp only [List.map_map]
  have h : (Prod.snd ∘ fun p : ℕ × VehId => (p.2, p.1)) = Prod.fst :=
    funext fun p => rfl
  rw [h]
  have h2 : t.rlIds.enum = List.enumFrom 0 t.rlIds := rfl
  rw [h2, List.enumFrom_map_fst]
  exact (List.range_eq_range' t.rlIds.length).symm

theorem pyKey_assocFind_str_keys :
    ∀ (m : List (PyKey × ℕ)) (i : ℕ) (s : String),
      (∀ p ∈ m, ∃ t, p.1 = PyKey.str t) →
      assocFind m (PyKey.intStrPair i s) = none := by
  intro m
  induction m with
  | nil => intro i s _; rfl
  | cons p rest ih =>
    intro i s h
    obtain ⟨t, ht⟩ := h p (List.mem_cons_self p rest)
    have hne : p.1 ≠ PyKey.intStrPair i s := by
      rw [ht]
      intro hcon
      cases hcon
    simp only [assocFind, if_neg hne]
    exact ih i s (fun q hq => h q (List.mem_cons_of_mem p hq))

theorem maddpgResetStep_str_keys (rlIds : List VehId)
    (mc : List (PyKey × ℕ) × ℕ) (key : VehId)
    (h : ∀ p ∈ mc.1, ∃ t, p.1 = PyKey.str t) :
    ∀ p ∈ (maddpgResetStep rlIds mc key).1, ∃ t, p.1 = PyKey.str t := by
  unfold maddpgResetStep
  split
  · intro p hp
    rcases List.mem_append.mp hp with h1 | h1
    · exact h p h1
    · rcases List.mem_singleton.mp h1 with rfl
      exact ⟨key, rfl⟩
  · exact h

theorem maddpgResetMapBuild_str_keys (departed rlIds : List VehId) :
    ∀ p ∈ (maddpgResetMapBuild departed rlIds).1, ∃ t, p.1 = PyKey.str t := by
  unfold maddpgResetMapBuild
  generalize hstart : (([], 0) : List (PyKey × ℕ) × ℕ) = mc0
  have h0 : ∀ p ∈ mc0.1, ∃ t, p.1 = PyKey.str t := by
    rw [← hstart]; intro p hp; cases hp
  clear hstart
  generalize departed ++ rlIds = keys
  induction keys generalizing mc0 with
  | nil => exact h0
  | cons key keys ih =>
    exact ih (maddpgResetStep rlIds mc0 key)
      (maddpgResetStep_str_keys rlIds mc0 key h0)

theorem ovmV_eq_clamp (h_st h_go v_max : ℝ) (hlt : h_st < h_go) :
    OVMController.V h_st h_go v_max = OVMController.Vclamp h_st h_go v_max := by
  funext h
  unfold OVMController.V OVMController.Vclamp
  by_cases h1 : h ≤ h_st
  · rw [if_pos h1]
    have hmin : min h h_go = h := min_eq_left (h1.trans hlt.le)
    have hmax : max h_st (min h h_go) = h_st := by
      rw [hmin]; exact max_eq_left h1
    rw [hmax, sub_self, mul_zero, zero_div, Real.cos_zero, sub_self, mul_zero]
  · rw [if_neg h1]
    push_neg at h1
    by_cases h2 : h < h_go
    · rw [if_pos h2]
      have hmin : min h h_go = h := min_eq_left h2.le
      have hmax : max h_st (min h h_go) = h := by
        rw [hmin]; exact max_eq_right h1.le
      rw [hmax]
    · rw [if_neg h2]
      push_neg at h2
      have hmin : min h h_go = h_go := min_eq_right h2
      have hmax : max h_st (min h h_go) = h_go := by
        rw [hmin]; exact max_eq_right hlt.le
      have hne : h_go - h_st ≠ 0 := sub_ne_zero.mpr hlt.ne'
      rw [hmax, mul_div_assoc, div_self hne, mul_one, Real.cos_pi]
      ring

theorem ovmVclamp_continuous (h_st h_go v_max : ℝ) :
    Continuous (OVMController.Vclamp h_st h_go v_max) := by
  unfold OVMController.Vclamp
  exact continuous_const.mul (continuous_const.sub (Real.continuous_cos.comp
    (((continuous_const.mul
      ((continuous_const.max (continuous_id.min continuous_const)).sub
        continuous_const))).div_const _)))

/-! ## Claims -/

/-- Claim C7: `get_action_mask` of the discrete fixed-roster adapter returns,
for an inactive (padding) slot, a mask of length `num_actions + 1` with a 1
only at index 0 and 0 everywhere else; and for an active slot, a mask with 0
at index 0 and 1 at every other index. -/
theorem qmix_action_mask_spec (numActions i : ℕ) (hi : i < numActions + 1) :
    (get_action_mask numActions false).length = numActions + 1
    ∧ (get_action_mask numActions true).length = numActions + 1
    ∧ (get_action_mask numActions false).getD i 0 = (if i = 0 then 1 else 0)
    ∧ (get_action_mask numActions true).getD i 0 = (if i = 0 then 0 else 1) := by
  unfold get_action_mask
  refine ⟨by simp, by simp, ?_, ?_⟩
  · cases i with
    | zero => simp [List.replicate_succ]
    | succ j =>
      simp only [if_neg (Nat.succ_ne_zero j), List.replicate_succ,
        List.set_cons_zero, List.getD_cons_succ]
      exact replicate_getD (Nat.lt_of_succ_lt_succ hi)
  · cases i with
    | zero => simp [List.replicate_succ]
    | succ j =>
      simp only [if_neg (Nat.succ_ne_zero j), List.replicate_succ,
        List.set_cons_zero, List.getD_cons_succ]
      exact replicate_getD (Nat.lt_of_succ_lt_succ hi)

/-- Witness for C7 at `num_actions = 3`, index `i = 2`. -/
theorem qmix_action_mask_spec_witness :
    (get_action_mask 3 false).length = 3 + 1
    ∧ (get_action_mask 3 true).length = 3 + 1
    ∧ (get_action_mask 3 false).getD 2 0 = (if 2 = 0 then 1 else 0)
    ∧ (get_action_mask 3 true).getD 2 0 = (if 2 = 0 then 0 else 1) :=
  qmix_action_mask_spec 3 2 (by decide)

/-- Claim C1 (amended): after any reset-then-tick sequence of the
`I210MADDPGMultiEnv` index map, the assigned slot indices are exactly
`0, ..., index_counter - 1` in insertion order — hence pairwise distinct (no
two mapped, in particular no two currently-active, RL ids share a slot), and
all of them lie in `[0, max_num_agents)` provided the cumulative number of
distinct RL ids ever inserted (`index_counter`) is at most `max_num_agents`.
After any `I210QMIXMultiEnv` tick (whose `get_state` ends by rebuilding the
map from `enumerate(rl_ids)`), the assigned indices are exactly
`0, ..., len(rl_ids) - 1`, pairwise distinct, and lie in
`[0, max_num_agents)` provided the current active RL count is at most
`max_num_agents`. -/
theorem fixed_roster_index_map_invariant (maxN : ℕ) (d0 r0 : List VehId)
    (ticks : List Tick) (t : Tick) (m : IdxMap) (p q : VehId × ℕ)
    (hp : p ∈ (maddpgRunMap d0 r0 ticks).toIdx)
    (hq : q ∈ (qmixTickMap m t).toIdx)
    (hc1 : (maddpgRunMap d0 r0 ticks).counter ≤ maxN)
    (hc2 : t.rlIds.length ≤ maxN) :
    ((maddpgRunMap d0 r0 ticks).toIdx.map Prod.snd
        = List.range (maddpgRunMap d0 r0 ticks).counter)
    ∧ ((maddpgRunMap d0 r0 ticks).toIdx.map Prod.snd).Nodup
    ∧ p.2 < maxN
    ∧ ((qmixTickMap m t).toIdx.map Prod.snd = List.range t.rlIds.length)
    ∧ ((qmixTickMap m t).toIdx.map Prod.snd).Nodup
    ∧ q.2 < maxN := by
  have h1 := maddpgRunMap_snd d0 r0 ticks
  have h2 := qmixTickMap_snd m t
  refine ⟨h1, ?_, ?_, h2, ?_, ?_⟩
  · rw [h1]; exact List.nodup_range _
  · have hmem : p.2 ∈ (maddpgRunMap d0 r0 ticks).toIdx.map Prod.snd :=
      List.mem_map_of_mem Prod.snd hp
    rw [h1] at hmem
    exact lt_of_lt_of_le (List.mem_range.mp hmem) hc1
  · rw [h2]; exact List.nodup_range _
  · have hmem : q.2 ∈ (qmixTickMap m t).toIdx.map Prod.snd :=
      List.mem_map_of_mem Prod.snd hq
    rw [h2] at hmem
    exact lt_of_lt_of_le (List.mem_range.mp hmem) hc2

/-- Witness for C1 at a concrete two-tick MADDPG run and a concrete QMIX
tick with `max_num_agents = 2`. -/
theorem fixed_roster_index_map_invariant_witness :
    ((maddpgRunMap [] ["a"] [Tick.mk ["b"] ["b"]]).toIdx.map Prod.snd
        = List.range (maddpgRunMap [] ["a"] [Tick.mk ["b"] ["b"]]).counter)
    ∧ ((maddpgRunMap [] ["a"] [Tick.mk ["b"] ["b"]]).toIdx.map Prod.snd).Nodup
    ∧ (("a", 0) : VehId × ℕ).2 < 2
    ∧ ((qmixTickMap (IdxMap.mk [] 0) (Tick.mk ["c"] ["c"])).toIdx.map Prod.snd
        = List.range (Tick.mk ["c"] ["c"]).rlIds.length)
    ∧ ((qmixTickMap (IdxMap.mk [] 0) (Tick.mk ["c"] ["c"])).toIdx.map
        Prod.snd).Nodup
    ∧ (("c", 0) : VehId × ℕ).2 < 2 :=
  fixed_roster_index_map_invariant 2 [] ["a"] [Tick.mk ["b"] ["b"]]
    (Tick.mk ["c"] ["c"]) (IdxMap.mk [] 0) ("a", 0) ("c", 0)
    (by decide) (by decide) (by decide) (by decide)

/-- Counterexample to C1 as stated: with `max_num_agents = 1`, a reset that
sees RL vehicle a followed by a tick in which a has left and b has departed
(one active RL vehicle per tick, so the capacity invariant holds each tick)
leaves the currently-active vehicle b mapped to slot index 1, which is not
in `[0, max_num_agents) = [0, 1)` — the MADDPG map never reclaims slots. -/
theorem fixed_roster_index_map_cex :
    "b" ∈ (Tick.mk ["b"] ["b"]).rlIds
    ∧ assocFind (maddpgRunMap [] ["a"] [Tick.mk ["b"] ["b"]]).toIdx "b" = some 1
    ∧ ¬ (1 < 1) := by decide

/-- Claim C3: `I210MADDPGMultiEnv.reset` raises an uncaught lookup error
(`KeyError`) whenever the RL vehicle list is non-empty after the base reset:
its final dict comprehension iterates over `enumerate(rl_ids)` and uses the
resulting `(index, id)` pairs as keys into the string-keyed index map. -/
theorem maddpg_reset_keyerror (α : Type) (departed rlIds : List VehId)
    (vehInfo : VehId → α) (defaultState : List (ℕ × α)) (hne : rlIds ≠ []) :
    exceptIsOk (maddpgReset α departed rlIds vehInfo defaultState) = false := by
  obtain ⟨x, xs, rfl⟩ : ∃ x xs, rlIds = x :: xs := by
    cases rlIds with
    | nil => exact absurd rfl hne
    | cons x xs => exact ⟨x, xs, rfl⟩
  have hnone := pyKey_assocFind_str_keys
    (maddpgResetMapBuild departed (x :: xs)).1 0 x
    (maddpgResetMapBuild_str_keys departed (x :: xs))
  unfold maddpgReset
  rw [List.enum_cons, List.mapM_cons, hnone]
  rfl

/-- Witness for C3 at a concrete non-empty RL list. -/
theorem maddpg_reset_keyerror_witness :
    exceptIsOk (maddpgReset ℕ [] ["a"] (fun _ => 0) []) = false :=
  maddpg_reset_keyerror ℕ [] ["a"] (fun _ => 0) [] (by decide)

/-- Claim C10: in the base `I210MultiEnv`, when the action dict is `None`
(warmup steps), `compute_reward` returns the empty dict and
`_apply_rl_actions` issues no acceleration commands. -/
theorem i210_warmup_noop (local_reward evaluate fail : Bool) (avg_vel : ℝ)
    (k : SimView) :
    I210MultiEnv.compute_reward local_reward evaluate fail avg_vel none k = []
    ∧ I210MultiEnv.apply_rl_actions none = [] :=
  ⟨rfl, rfl⟩

/-- Claim C4: for the optimal-velocity model with `h_st < h_go`, the
desired-speed function satisfies `V(h_st) = 0` and `V(h_go) = v_max`, and `V`
is continuous at both breakpoints (the cosine-ramp limits agree with the
adjacent constant regions). -/
theorem ovm_V_breakpoints (h_st h_go v_max : ℝ) (hlt : h_st < h_go) :
    OVMController.V h_st h_go v_max h_st = 0
    ∧ OVMController.V h_st h_go v_max h_go = v_max
    ∧ ContinuousAt (OVMController.V h_st h_go v_max) h_st
    ∧ ContinuousAt (OVMController.V h_st h_go v_max) h_go := by
  refine ⟨?_, ?_, ?_, ?_⟩
  · unfold OVMController.V
    rw [if_pos le_rfl]
  · unfold OVMController.V
    rw [if_neg (not_le.mpr hlt), if_neg (lt_irrefl h_go)]
  · rw [ovmV_eq_clamp h_st h_go v_max hlt]
    exact (ovmVclamp_continuous h_st h_go v_max).continuousAt
  · rw [ovmV_eq_clamp h_st h_go v_max hlt]
    exact (ovmVclamp_continuous h_st h_go v_max).continuousAt

/-- Witness for C4 at the controller's default parameters
`h_st = 2`, `h_go = 15`, `v_max = 30`. -/
theorem ovm_V_breakpoints_witness :
    OVMController.V 2 15 30 2 = 0
    ∧ OVMController.V 2 15 30 15 = 30
    ∧ ContinuousAt (OVMController.V 2 15 30) 2
    ∧ ContinuousAt (OVMController.V 2 15 30) 15 :=
  ovm_V_breakpoints 2 15 30 (by norm_num)

/-- Claim C5: each `LACController.get_accel` call updates the persistent
state by `a <- a + sim_step * (u - a) / tau` with
`u = k_1 * (headway - L - h * v) + k_2 * (v_lead - v)`, stores and returns
the new `a`; the iterates satisfy the exact geometric closed form
`a_n - u = (1 - sim_step/tau)^n * (a_0 - u)`, and when
`|1 - sim_step/tau| < 1` they converge to the steady state `a = u`. -/
theorem lac_first_order_lag (k_1 k_2 h tau sim_step a headway L this_vel
    lead_vel a0 uVal : ℝ) (n : ℕ)
    (hu : uVal = LACController.u k_1 k_2 h headway L this_vel lead_vel)
    (hq : |1 - sim_step / tau| < 1) :
    LACController.get_accel k_1 k_2 h tau sim_step a headway L this_vel
        lead_vel
      = (a + sim_step * (uVal - a) / tau, a + sim_step * (uVal - a) / tau)
    ∧ LACController.iterA tau sim_step uVal a0 n - uVal
        = (1 - sim_step / tau) ^ n * (a0 - uVal)
    ∧ Filter.Tendsto (LACController.iterA tau sim_step uVal a0)
        Filter.atTop (nhds uVal) := by
  subst hu
  have key : ∀ m : ℕ,
      LACController.iterA tau sim_step
          (LACController.u k_1 k_2 h headway L this_vel lead_vel) a0 m
        - LACController.u k_1 k_2 h headway L this_vel lead_vel
        = (1 - sim_step / tau) ^ m
          * (a0 - LACController.u k_1 k_2 h headway L this_vel lead_vel) := by
    intro m
    induction m with
    | zero => simp [LACController.iterA]
    | succ m ih =>
      have hstep : LACController.iterA tau sim_step
            (LACController.u k_1 k_2 h headway L this_vel lead_vel) a0 (m + 1)
          - LACController.u k_1 k_2 h headway L this_vel lead_vel
          = (1 - sim_step / tau)
            * (LACController.iterA tau sim_step
                (LACController.u k_1 k_2 h headway L this_vel lead_vel) a0 m
              - LACController.u k_1 k_2 h headway L this_vel lead_vel) := by
        simp only [LACController.iterA, LACController.update]
        ring
      rw [hstep, ih, pow_succ]
      ring
  refine ⟨?_, key n, ?_⟩
  · simp only [LACController.get_accel, LACController.update, Prod.mk.injEq]
    constructor <;> ring
  · have hfun : LACController.iterA tau sim_step
        (LACController.u k_1 k_2 h headway L this_vel lead_vel) a0
        = fun m => LACController.u k_1 k_2 h headway L this_vel lead_vel
          + (1 - sim_step / tau) ^ m
            * (a0 - LACController.u k_1 k_2 h headway L this_vel lead_vel) := by
      funext m
      have := key m
      linarith
    rw [hfun]
    have h0 : Filter.Tendsto (fun m : ℕ => (1 - sim_step / tau) ^ m)
        Filter.atTop (nhds 0) :=
      tendsto_pow_atTop_nhds_zero_of_abs_lt_one hq
    have hmul := h0.mul_const
      (a0 - LACController.u k_1 k_2 h headway L this_vel lead_vel)
    have hadd := Filter.Tendsto.const_add
      (LACController.u k_1 k_2 h headway L this_vel lead_vel) hmul
    simpa using hadd

/-- Witness for C5 at `k_1 = k_2 = h = 1`, `tau = sim_step = 1` (so that
`1 - sim_step/tau = 0`), `headway = 3`, `L = 1`, `this_vel = lead_vel = 1`,
hence `u = 1`, starting from `a0 = 0`, after `n = 2` calls. -/
theorem lac_first_order_lag_witness :
    LACController.get_accel 1 1 1 1 1 0 3 1 1 1
      = (0 + 1 * (1 - 0) / 1, 0 + 1 * (1 - 0) / 1)
    ∧ LACController.iterA 1 1 1 0 2 - 1 = (1 - 1 / 1) ^ 2 * (0 - 1)
    ∧ Filter.Tendsto (LACController.iterA 1 1 1 0) Filter.atTop (nhds 1) :=
  lac_first_order_lag 1 1 1 1 1 0 3 1 1 1 0 1 2
    (by unfold LACController.u; norm_num) (by norm_num)

/-- Claim C6: for the Intelligent Driver Model, when no leader is present
(`lead_id` is `None` or the empty string) the desired minimum gap `s*` is `0`
and `get_accel` returns exactly `a * (1 - (v/v0)^delta)`, for every own
speed `v` and headway `h`. -/
theorem idm_no_leader (v0 T a b delta s0 v h lead_vel : ℝ)
    (leadId : Option VehId) (hl : leadId = none ∨ leadId = some "") :
    IDMController.s_star s0 T a b v leadId lead_vel = 0
    ∧ IDMController.get_accel v0 T a b delta s0 v h leadId lead_vel
        = a * (1 - (v / v0) ^ delta) := by
  have hs : IDMController.s_star s0 T a b v leadId lead_vel = 0 := by
    unfold IDMController.s_star
    rw [if_pos hl]
  refine ⟨hs, ?_⟩
  unfold IDMController.get_accel
  rw [hs, zero_div, zero_pow two_ne_zero, sub_zero]

/-- Witness for C6 at the controller's default parameters with `v = 10`,
`h = 20`, no leader. -/
theorem idm_no_leader_witness :
    IDMController.s_star 2 1 1 (3 / 2) 10 none 0 = 0
    ∧ IDMController.get_accel 30 1 1 (3 / 2) 4 2 10 20 none 0
        = 1 * (1 - (10 / 30) ^ (4 : ℝ)) :=
  idm_no_leader 30 1 1 (3 / 2) 4 2 10 20 0 none (Or.inl rfl)

/-- Claim C8 (amended): `IDMController.get_accel` computes `(s*/h)^2` with the
headway `h` replaced by `1e-3` exactly when `|h| < 1e-3`; consequently the
effective denominator always has absolute value at least `1e-3` and is never
zero, and for nonnegative input headways it is indeed floored to `1e-3`. -/
theorem idm_headway_floor (v0 T a b delta s0 v h lead_vel : ℝ)
    (leadId : Option VehId) :
    IDMController.get_accel v0 T a b delta s0 v h leadId lead_vel
      = a * (1 - (v / v0) ^ delta -
          (IDMController.s_star s0 T a b v leadId lead_vel /
            IDMController.effective_headway h) ^ 2)
    ∧ IDMController.effective_headway h ≠ 0
    ∧ (1e-3 : ℝ) ≤ |IDMController.effective_headway h|
    ∧ (0 ≤ h → (1e-3 : ℝ) ≤ IDMController.effective_headway h) := by
  have habs : (1e-3 : ℝ) ≤ |IDMController.effective_headway h| := by
    unfold IDMController.effective_headway
    by_cases hc : |h| < 1e-3
    · rw [if_pos hc]
      rw [abs_of_pos (by norm_num : (0:ℝ) < 1e-3)]
    · rw [if_neg hc]
      exact le_of_not_lt hc
  refine ⟨rfl, ?_, habs, ?_⟩
  · intro h0
    rw [h0, abs_zero] at habs
    norm_num at habs
  · intro hpos
    unfold IDMController.effective_headway
    by_cases hc : |h| < 1e-3
    · rw [if_pos hc]
    · rw [if_neg hc]
      rw [abs_of_nonneg hpos] at hc
      exact le_of_not_lt hc

/-- Witness for C8 at IDM default parameters with `v = 10`, `h = 20`, a
leader at speed 8. -/
theorem idm_headway_floor_witness :
    IDMController.get_accel 30 1 1 (3 / 2) 4 2 10 20 (some "lead") 8
      = 1 * (1 - (10 / 30) ^ (4 : ℝ) -
          (IDMController.s_star 2 1 1 (3 / 2) 10 (some "lead") 8 /
            IDMController.effective_headway 20) ^ 2)
    ∧ IDMController.effective_headway 20 ≠ 0
    ∧ (1e-3 : ℝ) ≤ |IDMController.effective_headway 20|
    ∧ (0 ≤ (20 : ℝ) → (1e-3 : ℝ) ≤ IDMController.effective_headway 20) :=
  idm_headway_floor 30 1 1 (3 / 2) 4 2 10 20 8 (some "lead")

/-- Counterexample to C8 as stated: at the (numerically degenerate but
type-correct) input headway `h = -1`, the value actually used in the
denominator is `-1`, which is not floored to the positive epsilon `1e-3`;
the guard only replaces `h` when `|h| < 1e-3`. -/
theorem idm_headway_floor_cex :
    IDMController.effective_headway (-1) = -1
    ∧ ¬ ((1e-3 : ℝ) ≤ IDMController.effective_headway (-1)) := by
  have heff : IDMController.effective_headway (-1) = -1 := by
    unfold IDMController.effective_headway
    rw [if_neg (by rw [abs_neg, abs_one]; norm_num)]
  exact ⟨heff, by rw [heff]; norm_num⟩

/-- Claim C2 (amended): on every tick, both fixed-roster `compute_reward`
methods return a dict whose keys are exactly the slot indices
`0 .. max_num_agents - 1` and whose values are one identical scalar; for
`I210QMIXMultiEnv` that scalar is the mean speed of the RL fleet divided by
`20 * horizon`, while for `I210MADDPGMultiEnv` it is the mean speed of the
entire vehicle population (`get_ids()`), not of the RL fleet, divided by
`20 * horizon`. -/
theorem fixed_roster_global_reward (max_num_agents : ℕ) (horizon : ℝ)
    (k : SimView) (i : ℕ) (hi : i < max_num_agents) :
    (I210QMIXMultiEnv.compute_reward max_num_agents horizon k).map Prod.fst
      = List.range max_num_agents
    ∧ assocFind (I210QMIXMultiEnv.compute_reward max_num_agents horizon k) i
      = some (pyMean (k.rlIds.map k.speed) / (20 * horizon))
    ∧ (I210MADDPGMultiEnv.compute_reward max_num_agents horizon k).map Prod.fst
      = List.range max_num_agents
    ∧ assocFind (I210MADDPGMultiEnv.compute_reward max_num_agents horizon k) i
      = some (pyMean (k.ids.map k.speed) / (20 * horizon)) := by
  have hfst : ∀ r : ℝ,
      ((List.range max_num_agents).map (fun idx => (idx, r))).map Prod.fst
        = List.range max_num_agents := by
    intro r
    rw [List.map_map]
    have hcomp : (Prod.fst ∘ fun idx : ℕ => (idx, r)) = id := funext fun _ => rfl
    rw [hcomp, List.map_id]
  refine ⟨hfst _, ?_, hfst _, ?_⟩
  · exact assocFind_map_self (fun _ => pyMean (k.rlIds.map k.speed)
      / (20 * horizon)) (List.range max_num_agents) i (List.mem_range.mpr hi)
  · exact assocFind_map_self (fun _ => pyMean (k.ids.map k.speed)
      / (20 * horizon)) (List.range max_num_agents) i (List.mem_range.mpr hi)

/-- Witness for C2 on the concrete two-vehicle view with
`max_num_agents = 1`, `horizon = 1`, slot `i = 0`. -/
theorem fixed_roster_global_reward_witness :
    (I210QMIXMultiEnv.compute_reward 1 1 twoCarView).map Prod.fst
      = List.range 1
    ∧ assocFind (I210QMIXMultiEnv.compute_reward 1 1 twoCarView) 0
      = some (pyMean (twoCarView.rlIds.map twoCarView.speed) / (20 * 1))
    ∧ (I210MADDPGMultiEnv.compute_reward 1 1 twoCarView).map Prod.fst
      = List.range 1
    ∧ assocFind (I210MADDPGMultiEnv.compute_reward 1 1 twoCarView) 0
      = some (pyMean (twoCarView.ids.map twoCarView.speed) / (20 * 1)) :=
  fixed_roster_global_reward 1 1 twoCarView 0 (by decide)

/-- Counterexample to C2 as stated: on the two-vehicle view (RL vehicle a at
speed 10, non-RL vehicle b at speed 0, `horizon = 1`, `max_num_agents = 1`),
`I210MADDPGMultiEnv.compute_reward` broadcasts `5 / 20` (the population mean
speed normalized), whereas the claimed RL-fleet formula gives `10 / 20`. -/
theorem fixed_roster_global_reward_cex :
    I210MADDPGMultiEnv.compute_reward 1 1 twoCarView = [(0, 5 / 20)]
    ∧ pyMean (twoCarView.rlIds.map twoCarView.speed) / (20 * 1) = 10 / 20
    ∧ ((5 : ℝ) / 20) ≠ 10 / 20 := by
  refine ⟨?_, ?_, by norm_num⟩
  · unfold I210MADDPGMultiEnv.compute_reward twoCarView pyMean
    simp +decide [List.range_succ]
    norm_num
  · unfold twoCarView pyMean
    simp +decide

/-- Claim C9: in the base `I210MultiEnv` with `lead_obs` enabled, `get_state`
returns for every RL vehicle the 3-vector
`[own speed / 50, headway / 1000, leader speed / 50]`, where a leader speed
equal to the missing-leader sentinel `-1001` is mapped to `0`. -/
theorem i210_lead_obs_state (state_util veh_statistics : VehId → List ℝ)
    (k : SimView) (rl_id : VehId) (hmem : rl_id ∈ k.rlIds) :
    assocFind (I210MultiEnv.get_state true state_util veh_statistics k) rl_id
      = some [k.speed rl_id / 50,
              k.headway rl_id / 1000,
              (if k.speed (k.leader rl_id) = -1001 then 0
               else k.speed (k.leader rl_id)) / 50] :=
  assocFind_map_self
    (fun rl_id => [k.speed rl_id / 50, k.headway rl_id / 1000,
      (if k.speed (k.leader rl_id) = -1001 then 0
       else k.speed (k.leader rl_id)) / 50])
    k.rlIds rl_id hmem

/-- Witness for C9 on the concrete missing-leader view: vehicle a has speed
10, headway 100, and a missing leader (sentinel speed -1001), producing the
observation `[10/50, 100/1000, 0]`. -/
theorem i210_lead_obs_state_witness :
    assocFind
      (I210MultiEnv.get_state true (fun _ => []) (fun _ => []) missingLeadView)
      "a" = some [10 / 50, 100 / 1000, 0] := by
  have h := i210_lead_obs_state (fun _ => []) (fun _ => []) missingLeadView "a"
    (by decide)
  rw [h]
  unfold missingLeadView
  simp +decide

end Flow
